import Mathlib

/-!
Shallow embedding of `pkg/connector/local_connector.go` (the local backend of
the kubekey execution-transport abstraction).

Modelling choices:
* Go `[]byte` contents and command output are modelled as `String` (a byte
  string); file paths and command lines are `String`.
* The operating system is modelled as an explicit oracle state `FS`: an
  association list of regular files (each with a read behaviour), a set of
  existing directories, and oracles for `os.Stat`, `os.MkdirAll` and
  `os.WriteFile` failures keyed by path.
* Each operation additionally returns the list of observable OS `Event`s it
  performed (stat, mkdir, open, copy, write, command spawn).  File-handle
  accounting for the resource-ownership claims is read off this trace: the
  source's `FetchFile` calls `os.Open` and never calls `Close`, so the
  embedding emits an `openOk` event and no `closeFile` event, exactly as the
  source does.
* `exec.Interface.CommandContext(...).CombinedOutput()` is an injected
  external capability; it is modelled as a function field `Cmd` of the
  connector returning combined output, the process exit status and an
  optional error.
-/

/-- A Go `error` value as distinguished by this file: `os` errors for which
`os.IsNotExist` is true are the `notExist` constructor; every other error kind
is opaque data. -/
inductive GoError where
  | notExist (path : String)
  | permissionDenied (path : String)
  | exitErr (code : Nat)
  | ioErr (msg : String)
deriving DecidableEq, Repr

/-- `os.IsNotExist` on the modelled error values. -/
def GoError.isNotExist : GoError → Bool
  | .notExist _ => true
  | _ => false

/-- Read behaviour of one regular file in the oracle filesystem: it can be
opened and fully read, or fail at `os.Open`, or fail during `io.Copy` after
producing a prefix of its contents. -/
inductive FileBehavior where
  | readable (contents : String)
  | openFails (e : GoError)
  | copyFails (written : String) (e : GoError)
deriving DecidableEq, Repr

/-- First-match association-list lookup. -/
def alookup {α : Type} : List (String × α) → String → Option α
  | [], _ => none
  | (k, v) :: rest, key => if k = key then some v else alookup rest key

/-- Oracle filesystem state: the existing files and directories plus the
outcomes the OS returns for stat/mkdir/write calls on given paths. -/
structure FS where
  files : List (String × FileBehavior)
  dirs : List (String × Nat)
  statErrs : List (String × GoError)
  mkdirErrs : List (String × GoError)
  writeErrs : List (String × GoError)
deriving DecidableEq, Repr

/-- `os.Stat` on a directory path, keeping only the error component (the
source discards the `FileInfo`).  A path with a registered stat failure
returns that failure; otherwise an existing directory stats cleanly and a
missing one yields a not-exist error. -/
def FS.statDir (fs : FS) (d : String) : Option GoError :=
  match alookup fs.statErrs d with
  | some e => some e
  | none => if (alookup fs.dirs d).isSome then none else some (.notExist d)

/-- `os.MkdirAll(d, mode)`: either the registered failure, or success that
records the directory with the permission mode it was created with. -/
def FS.mkdirAll (fs : FS) (d : String) (mode : Nat) : Option GoError × FS :=
  match alookup fs.mkdirErrs d with
  | some e => (some e, fs)
  | none => (none, { fs with dirs := (d, mode) :: fs.dirs })

/-- `os.WriteFile(p, b, mode)`: either the registered failure (leaving the
filesystem unchanged), or success that makes `p` a readable file holding
exactly `b` (create-or-truncate: any previous binding for `p` is shadowed). -/
def FS.writeFile (fs : FS) (p : String) (content : String) (_mode : Nat) :
    Option GoError × FS :=
  match alookup fs.writeErrs p with
  | some e => (some e, fs)
  | none => (none, { fs with files := (p, .readable content) :: fs.files })

/-- Split a character list on every occurrence of a separator character; the
result always has one more group than there are separators. -/
def splitOnChar (sep : Char) : List Char → List (List Char)
  | [] => [[]]
  | c :: rest =>
    match splitOnChar sep rest with
    | [] => [[]]
    | g :: gs => if c = sep then [] :: g :: gs else (c :: g) :: gs

/-- Join character-list groups with a separator character. -/
def intercalateChar (sep : Char) : List (List Char) → List Char
  | [] => []
  | [g] => g
  | g :: g2 :: gs => g ++ sep :: intercalateChar sep (g2 :: gs)

/-- Go `filepath.Dir`: the path with its last element dropped; `"."` when the
path has a single relative element, `"/"` for a top-level absolute element. -/
def filepathDir (p : String) : String :=
  match (splitOnChar '/' p.toList).dropLast with
  | [] => "."
  | [[]] => "/"
  | parts => String.mk (intercalateChar '/' parts)

/-- Observable OS events performed by an operation, in order. -/
inductive Event where
  | statDir (d : String)
  | mkdirAll (d : String) (mode : Nat)
  | writeFile (p : String) (mode : Nat)
  | openOk (p : String)
  | openFail (p : String)
  | copyOp (p : String)
  | closeFile (p : String)
  | execCmd (prog : String) (args : List String)
deriving DecidableEq, Repr

/-- A Go `context.Context`, of which only cancellation state is relevant. -/
structure Ctx where
  cancelled : Bool
deriving DecidableEq, Repr

/-- Modelled from the spec: result of the injected command-execution
provider's combined-output call — the interleaved stdout/stderr bytes, the
process exit status, and the error value (`k8s.io/utils/exec` is external to
this repository). -/
structure CombinedResult where
  output : String
  exitCode : Nat
  err : Option GoError
deriving DecidableEq, Repr

/-- Modelled from the spec: the injected command-execution provider
(`exec.Interface`), a function of the context, program path and argument
list. -/
def ExecProvider : Type := Ctx → String → List String → CombinedResult

/-- The local backend: owns exactly one injected command-execution
provider, mirroring `type localConnector struct { Cmd exec.Interface }`. -/
structure LocalConnector where
  Cmd : ExecProvider

/-- Result of `PutFile`: the returned error, the filesystem afterwards, and
the events performed. -/
structure PutResult where
  err : Option GoError
  fs : FS
  events : List Event
deriving DecidableEq, Repr

/-- Result of `FetchFile`: the returned error, the destination writer's
contents afterwards, and the events performed. -/
structure FetchResult where
  err : Option GoError
  dst : String
  events : List Event
deriving DecidableEq, Repr

/-- The final `os.WriteFile` step of `PutFile` (the source returns its error
directly). -/
def writeStep (fs : FS) (dst : String) (src : String) (mode : Nat)
    (evs : List Event) : PutResult :=
  match fs.writeFile dst src mode with
  | (we, fs2) => ⟨we, fs2, evs ++ [.writeFile dst mode]⟩

/-- `localConnector.PutFile(ctx, src, dst, mode)`: stat the destination's
parent directory; only when that stat fails with a not-exist error, create
the directory recursively with the same mode (returning the creation error on
failure); then write the file, returning the write's error. -/
def LocalConnector.putFile (_c : LocalConnector) (fs : FS) (_ctx : Ctx)
    (src : String) (dst : String) (mode : Nat) : PutResult :=
  let d := filepathDir dst
  match fs.statDir d with
  | some e =>
    if e.isNotExist then
      match fs.mkdirAll d mode with
      | (some me, _) => ⟨some me, fs, [.statDir d, .mkdirAll d mode]⟩
      | (none, fs1) => writeStep fs1 dst src mode [.statDir d, .mkdirAll d mode]
    else
      writeStep fs dst src mode [.statDir d]
  | none => writeStep fs dst src mode [.statDir d]

/-- `localConnector.FetchFile(ctx, src, dst)`: open `src` (returning the open
error on failure, with nothing written), then `io.Copy` its contents into the
destination writer.  Note the source never closes the opened file on any
path, so no `closeFile` event is ever emitted. -/
def LocalConnector.fetchFile (_c : LocalConnector) (fs : FS) (_ctx : Ctx)
    (src : String) (dst : String) : FetchResult :=
  match alookup fs.files src with
  | none => ⟨some (.notExist src), dst, [.openFail src]⟩
  | some (.openFails e) => ⟨some e, dst, [.openFail src]⟩
  | some (.readable b) => ⟨none, dst ++ b, [.openOk src, .copyOp src]⟩
  | some (.copyFails w e) => ⟨some e, dst ++ w, [.openOk src, .copyOp src]⟩

/-- `localConnector.ExecuteCommand(ctx, cmd)`: delegate to the injected
provider as `/bin/sh -c <cmd>` and return its combined output and error
unchanged. -/
def LocalConnector.executeCommand (c : LocalConnector) (ctx : Ctx)
    (cmd : String) : CombinedResult :=
  c.Cmd ctx "/bin/sh" ["-c", cmd]

/-- Split a character list at the first occurrence of a separator, when one
occurs. -/
def splitFirst (sep : Char) : List Char → Option (List Char × List Char)
  | [] => none
  | c :: rest =>
    if c = sep then some ([], rest)
    else
      match splitFirst sep rest with
      | none => none
      | some (k, v) => some (c :: k, v)

/-- Modelled from the spec: the external text-parsing helper
`convertBytesToMap(bytes, sep)` — parse delimiter-separated text into a
mapping, one `key<sep>value` entry per line that contains the separator. -/
def convertBytesToMap (b : String) (sep : Char) : List (String × String) :=
  (splitOnChar '\n' b.toList).filterMap fun line =>
    match splitFirst sep line with
    | none => none
    | some (k, v) => some (String.mk k, String.mk v)

/-- Group lines into blocks separated by blank lines. -/
def blocksOf : List (List Char) → List (List (List Char))
  | [] => []
  | [line] => if line = [] then [] else [[line]]
  | line :: l2 :: rest =>
    if line = [] then blocksOf (l2 :: rest)
    else
      match blocksOf (l2 :: rest) with
      | [] => [[line]]
      | blk :: blks =>
        match l2 with
        | [] => [line] :: blk :: blks
        | _ => (line :: blk) :: blks

/-- Modelled from the spec: the external text-parsing helper
`convertBytesToSlice(bytes, sep)` — parse multi-record text (records
separated by blank lines, e.g. per-CPU blocks) into an ordered sequence of
`key<sep>value` mappings. -/
def convertBytesToSlice (b : String) (sep : Char) :
    List (List (String × String)) :=
  (blocksOf (splitOnChar '\n' b.toList)).map fun blk =>
    blk.filterMap fun line =>
      match splitFirst sep line with
      | none => none
      | some (k, v) => some (String.mk k, String.mk v)

/-- `bytes.TrimSuffix(s, "\n")`: remove a single trailing newline when
present. -/
def trimOneNewline (s : String) : String :=
  if s.toList.getLast? = some '\n' then String.mk s.toList.dropLast else s

/-- A value stored in the `os` / `process` sub-mappings of the fact
document: a trimmed string, a parsed mapping, or a parsed ordered sequence
of mappings. -/
inductive FactValue where
  | str (s : String)
  | table (m : List (String × String))
  | tables (ms : List (List (String × String)))
deriving DecidableEq, Repr

/-- One sub-mapping of the fact document (Go `map[string]any`, modelled as
an association list in insertion order). -/
abbrev SubMap : Type := List (String × FactValue)

/-- The two-level fact document (Go `map[string]any` of sub-mappings). -/
abbrev FactDoc : Type := List (String × SubMap)

/-- The error returned by `Info`: `fmt.Errorf("<msg>: %w", cause)` — a
message identifying the failing fact-source, wrapping the step's error. -/
inductive InfoError where
  | wrap (msg : String) (cause : GoError)
deriving DecidableEq, Repr

/-- Result of `Info`: the fact document (or `none`), the returned error (or
`none`), and the OS events performed while gathering. -/
structure InfoOut where
  doc : Option FactDoc
  err : Option InfoError
  trace : List Event
deriving DecidableEq, Repr

/-- The host environment `Info` runs against: `runtime.GOOS` and the oracle
filesystem. -/
structure Env where
  goos : String
  fs : FS

/-- The event a call to `ExecuteCommand` performs (it always delegates to the
provider as `/bin/sh -c <cmd>`). -/
def execEvent (cmd : String) : Event :=
  .execCmd "/bin/sh" ["-c", cmd]

/-- `localConnector.Info(ctx)`: on `runtime.GOOS == "linux"`, gather the six
fact sources in order — fetch `/etc/os-release`, run `uname -r`, `hostname`,
`arch`, fetch `/proc/cpuinfo`, fetch `/proc/meminfo` — failing fast with a
wrapped error on the first failing step; on any other platform, return no
document and no error.  Each fetch uses a fresh empty `bytes.Buffer` as the
destination writer. -/
def LocalConnector.info (c : LocalConnector) (env : Env) (ctx : Ctx) :
    InfoOut :=
  if env.goos = "linux" then
    let r0 := c.fetchFile env.fs ctx "/etc/os-release" ""
    match r0.err with
    | some e => ⟨none, some (.wrap "failed to fetch os-release" e), r0.events⟩
    | none =>
      let r1 := c.executeCommand ctx "uname -r"
      match r1.err with
      | some e =>
        ⟨none, some (.wrap "get kernel version error" e),
          r0.events ++ [execEvent "uname -r"]⟩
      | none =>
        let r2 := c.executeCommand ctx "hostname"
        match r2.err with
        | some e =>
          ⟨none, some (.wrap "get hostname error" e),
            r0.events ++ [execEvent "uname -r"] ++ [execEvent "hostname"]⟩
        | none =>
          let r3 := c.executeCommand ctx "arch"
          match r3.err with
          | some e =>
            ⟨none, some (.wrap "get arch error" e),
              r0.events ++ [execEvent "uname -r"] ++ [execEvent "hostname"]
                ++ [execEvent "arch"]⟩
          | none =>
            let r4 := c.fetchFile env.fs ctx "/proc/cpuinfo" ""
            match r4.err with
            | some e =>
              ⟨none, some (.wrap "get cpuinfo error" e),
                r0.events ++ [execEvent "uname -r"] ++ [execEvent "hostname"]
                  ++ [execEvent "arch"] ++ r4.events⟩
            | none =>
              let r5 := c.fetchFile env.fs ctx "/proc/meminfo" ""
              match r5.err with
              | some e =>
                ⟨none, some (.wrap "get meminfo error" e),
                  r0.events ++ [execEvent "uname -r"] ++ [execEvent "hostname"]
                    ++ [execEvent "arch"] ++ r4.events ++ r5.events⟩
              | none =>
                let osVars : SubMap :=
                  [("release", .table (convertBytesToMap r0.dst '=')),
                   ("kernel_version", .str (trimOneNewline r1.output)),
                   ("hostname", .str (trimOneNewline r2.output)),
                   ("architecture", .str (trimOneNewline r3.output))]
                let procVars : SubMap :=
                  [("cpuInfo", .tables (convertBytesToSlice r4.dst ':')),
                   ("memInfo", .table (convertBytesToMap r5.dst ':'))]
                ⟨some [("os", osVars), ("process", procVars)], none,
                  r0.events ++ [execEvent "uname -r"] ++ [execEvent "hostname"]
                    ++ [execEvent "arch"] ++ r4.events ++ r5.events⟩
  else
    ⟨none, none, []⟩

/-- The error produced by fact-gathering step `k` of `Info`'s Linux branch
(steps are pure reads of the environment, so their outcomes are independent
of the other steps). -/
def stepErr (c : LocalConnector) (env : Env) (ctx : Ctx) : Nat → Option GoError
  | 0 => (c.fetchFile env.fs ctx "/etc/os-release" "").err
  | 1 => (c.executeCommand ctx "uname -r").err
  | 2 => (c.executeCommand ctx "hostname").err
  | 3 => (c.executeCommand ctx "arch").err
  | 4 => (c.fetchFile env.fs ctx "/proc/cpuinfo" "").err
  | 5 => (c.fetchFile env.fs ctx "/proc/meminfo" "").err
  | _ => none

/-- The bytes produced by fact-gathering step `k` of `Info`'s Linux branch. -/
def stepOut (c : LocalConnector) (env : Env) (ctx : Ctx) : Nat → String
  | 0 => (c.fetchFile env.fs ctx "/etc/os-release" "").dst
  | 1 => (c.executeCommand ctx "uname -r").output
  | 2 => (c.executeCommand ctx "hostname").output
  | 3 => (c.executeCommand ctx "arch").output
  | 4 => (c.fetchFile env.fs ctx "/proc/cpuinfo" "").dst
  | 5 => (c.fetchFile env.fs ctx "/proc/meminfo" "").dst
  | _ => ""

/-- The message with which `Info` wraps the error of step `k`, identifying
the failing fact-source. -/
def stepLabel : Nat → String
  | 0 => "failed to fetch os-release"
  | 1 => "get kernel version error"
  | 2 => "get hostname error"
  | 3 => "get arch error"
  | 4 => "get cpuinfo error"
  | 5 => "get meminfo error"
  | _ => ""

/-- The OS events fact-gathering step `k` performs. -/
def stepEvents (c : LocalConnector) (env : Env) (ctx : Ctx) :
    Nat → List Event
  | 0 => (c.fetchFile env.fs ctx "/etc/os-release" "").events
  | 1 => [execEvent "uname -r"]
  | 2 => [execEvent "hostname"]
  | 3 => [execEvent "arch"]
  | 4 => (c.fetchFile env.fs ctx "/proc/cpuinfo" "").events
  | 5 => (c.fetchFile env.fs ctx "/proc/meminfo" "").events
  | _ => []

/-- The concatenated events of fact-gathering steps `0` through `k`. -/
def traceUpTo (c : LocalConnector) (env : Env) (ctx : Ctx) (k : Nat) :
    List Event :=
  ((List.range (k + 1)).map (stepEvents c env ctx)).flatten

/-- The opened-file paths recorded in a trace. -/
def opensOf (evs : List Event) : List String :=
  evs.filterMap fun e =>
    match e with
    | .openOk p => some p
    | _ => none

/-- The closed-file paths recorded in a trace. -/
def closesOf (evs : List Event) : List String :=
  evs.filterMap fun e =>
    match e with
    | .closeFile p => some p
    | _ => none

/-- File handles opened by a call and never closed before it returned. -/
def leakedHandles (evs : List Event) : List String :=
  (opensOf evs).filter fun p => ¬ p ∈ closesOf evs

/-- Modelled from the spec: a provider faithful to combined-output semantics
surfaces a non-zero process exit status as a non-nil error value. -/
def surfacesNonzeroExit (prov : ExecProvider) : Prop :=
  ∀ ctx prog args, (prov ctx prog args).exitCode ≠ 0 →
    ((prov ctx prog args).err).isSome = true

/-- A provider whose every command succeeds with empty output. -/
def provQuiet : ExecProvider := fun _ _ _ => ⟨"", 0, none⟩

/-- A provider answering the three fact-gathering commands of `Info`. -/
def provLinux : ExecProvider := fun _ _ args =>
  if args = ["-c", "uname -r"] then ⟨"6.1.0-13-amd64\n", 0, none⟩
  else if args = ["-c", "hostname"] then ⟨"node1\n", 0, none⟩
  else if args = ["-c", "arch"] then ⟨"x86_64\n", 0, none⟩
  else ⟨"", 1, some (.exitErr 1)⟩

/-- A provider whose every command exits with status 3 after printing
diagnostic output. -/
def provFail : ExecProvider := fun _ _ _ => ⟨"boom\n", 3, some (.exitErr 3)⟩

/-- The empty oracle filesystem. -/
def fsEmpty : FS := ⟨[], [], [], [], []⟩

/-- An oracle filesystem holding the three Linux fact-source files. -/
def fsLinux : FS :=
  ⟨[("/etc/os-release", .readable "ID=debian\nNAME=Debian\n"),
    ("/proc/cpuinfo",
      .readable "processor: 0\nmodel: a\n\nprocessor: 1\nmodel: a\n"),
    ("/proc/meminfo", .readable "MemTotal: 100\nMemFree: 50\n")],
   [], [], [], []⟩

/-- A connector with the quiet provider. -/
def connQuiet : LocalConnector := ⟨provQuiet⟩

/-- A connector with the Linux fact-source provider. -/
def connLinux : LocalConnector := ⟨provLinux⟩

/-- A connector with the always-failing provider. -/
def connFail : LocalConnector := ⟨provFail⟩

/-- An uncancelled context. -/
def ctxLive : Ctx := ⟨false⟩

/-- A filesystem whose stat of directory `/a` fails with a permission error
(not a not-exist error), used to exercise the discarded-stat-error path of
`PutFile`. -/
def fsStatBroken : FS :=
  ⟨[], [], [("/a", .permissionDenied "/a")], [], []⟩

/-- A filesystem where `/etc/os-release` exists but the kernel-version
command will fail, used to exercise fail-fast fact gathering. -/
def fsOnlyRelease : FS :=
  ⟨[("/etc/os-release", .readable "ID=debian\n")], [], [], [], []⟩

/-! ## Claim theorems -/

/-- C2: on a platform other than Linux, `Info` performs no fact-gathering
reads (empty event trace) and returns a nil document together with a nil
error. -/
theorem c2_info_unsupported_platform (c : LocalConnector) (env : Env)
    (ctx : Ctx) (h : env.goos ≠ "linux") :
    c.info env ctx = ⟨none, none, []⟩ := by
  simp [LocalConnector.info, h]

/-- C2 witness: on a concrete `darwin` environment the theorem applies. -/
theorem c2_info_unsupported_platform_witness :
    ("darwin" : String) ≠ "linux" ∧
      connQuiet.info ⟨"darwin", fsEmpty⟩ ctxLive = ⟨none, none, []⟩ :=
  ⟨by decide, c2_info_unsupported_platform connQuiet ⟨"darwin", fsEmpty⟩
    ctxLive (by decide)⟩

/-- C5: fetching a readable source file with contents `b` succeeds and the
destination writer receives exactly `b`, appended in order after its prior
contents. -/
theorem c5_fetchFile_delivers_contents (c : LocalConnector) (fs : FS)
    (ctx : Ctx) (src dst b : String)
    (h : alookup fs.files src = some (.readable b)) :
    c.fetchFile fs ctx src dst = ⟨none, dst ++ b, [.openOk src, .copyOp src]⟩ := by
  simp [LocalConnector.fetchFile, h]

/-- C5 witness: fetching a concrete readable file delivers its contents. -/
theorem c5_fetchFile_delivers_contents_witness :
    alookup fsLinux.files "/proc/meminfo"
        = some (.readable "MemTotal: 100\nMemFree: 50\n") ∧
      connQuiet.fetchFile fsLinux ctxLive "/proc/meminfo" ""
        = ⟨none, "MemTotal: 100\nMemFree: 50\n",
            [.openOk "/proc/meminfo", .copyOp "/proc/meminfo"]⟩ :=
  ⟨by decide, c5_fetchFile_delivers_contents connQuiet fsLinux ctxLive
    "/proc/meminfo" "" "MemTotal: 100\nMemFree: 50\n" (by decide)⟩

/-- C6: when the source path does not exist or cannot be opened, `FetchFile`
returns a non-nil error and the destination writer is untouched. -/
theorem c6_fetchFile_open_failure (c : LocalConnector) (fs : FS) (ctx : Ctx)
    (src dst : String)
    (h : alookup fs.files src = none ∨
      ∃ e, alookup fs.files src = some (.openFails e)) :
    ∃ e, c.fetchFile fs ctx src dst = ⟨some e, dst, [.openFail src]⟩ := by
  rcases h with h | ⟨e, h⟩
  · exact ⟨.notExist src, by simp [LocalConnector.fetchFile, h]⟩
  · exact ⟨e, by simp [LocalConnector.fetchFile, h]⟩

/-- C6 witness: fetching a nonexistent concrete path errors and writes
nothing. -/
theorem c6_fetchFile_open_failure_witness :
    (alookup fsEmpty.files "/etc/os-release" = none ∨
      ∃ e, alookup fsEmpty.files "/etc/os-release" = some (.openFails e)) ∧
    ∃ e, connQuiet.fetchFile fsEmpty ctxLive "/etc/os-release" "old"
        = ⟨some e, "old", [.openFail "/etc/os-release"]⟩ :=
  ⟨Or.inl (by decide), c6_fetchFile_open_failure connQuiet fsEmpty ctxLive
    "/etc/os-release" "old" (Or.inl (by decide))⟩

/-- C7: `ExecuteCommand` invokes the injected provider as
`/bin/sh -c <cmd>` and returns its combined output and error unchanged; for
a provider that surfaces non-zero exit statuses as errors, a non-zero exit
yields a non-nil error while the collected output bytes are still
returned. -/
theorem c7_executeCommand_passthrough (c : LocalConnector) (ctx : Ctx)
    (cmd : String) :
    c.executeCommand ctx cmd = c.Cmd ctx "/bin/sh" ["-c", cmd] ∧
    (∀ out n e, c.Cmd ctx "/bin/sh" ["-c", cmd] = ⟨out, n, some e⟩ →
      c.executeCommand ctx cmd = ⟨out, n, some e⟩) ∧
    (surfacesNonzeroExit c.Cmd →
      (c.Cmd ctx "/bin/sh" ["-c", cmd]).exitCode ≠ 0 →
      ((c.executeCommand ctx cmd).err).isSome = true ∧
        (c.executeCommand ctx cmd).output
          = (c.Cmd ctx "/bin/sh" ["-c", cmd]).output) := by
  refine ⟨rfl, fun out n e h => h, fun hs hn => ⟨?_, rfl⟩⟩
  exact hs ctx "/bin/sh" ["-c", cmd] hn

/-- C7 witness: at a concrete provider exiting with status 3, the error is
surfaced and the diagnostic output is preserved. -/
theorem c7_executeCommand_passthrough_witness :
    surfacesNonzeroExit connFail.Cmd ∧
    (connFail.Cmd ctxLive "/bin/sh" ["-c", "exit 3"]).exitCode ≠ 0 ∧
    ((connFail.executeCommand ctxLive "exit 3").err).isSome = true ∧
    (connFail.executeCommand ctxLive "exit 3").output
      = (connFail.Cmd ctxLive "/bin/sh" ["-c", "exit 3"]).output :=
  ⟨fun _ _ _ _ => rfl, by decide,
    (c7_executeCommand_passthrough connFail ctxLive "exit 3").2.2
      (fun _ _ _ _ => rfl) (by decide)⟩

/-- C9 (code bug): the source's `FetchFile` opens the source file and
returns without ever calling `Close`, so a successful call leaves its file
handle open — contradicting the resource-ownership contract that every
acquired handle is released on every exit path. -/
theorem c9_fetchFile_leaks_open_handle :
    (connQuiet.fetchFile fsLinux ctxLive "/etc/os-release" "").err = none ∧
    leakedHandles
        (connQuiet.fetchFile fsLinux ctxLive "/etc/os-release" "").events
      = ["/etc/os-release"] := by
  decide

/-- C10: when the stat of the destination's parent directory fails with an
error that is not a not-exist error, `PutFile` attempts no directory
creation, silently discards the stat error, and proceeds directly to the
write; its result is solely the write's error. -/
theorem c10_putFile_discards_other_stat_errors (c : LocalConnector)
    (fs : FS) (ctx : Ctx) (b p : String) (m : Nat) (e : GoError)
    (h1 : fs.statDir (filepathDir p) = some e)
    (h2 : e.isNotExist = false) :
    (c.putFile fs ctx b p m).events
        = [.statDir (filepathDir p), .writeFile p m] ∧
    (c.putFile fs ctx b p m).err = alookup fs.writeErrs p := by
  cases hw : alookup fs.writeErrs p <;>
    simp [LocalConnector.putFile, writeStep, FS.writeFile, h1, h2, hw]

/-- C10 witness: with a concrete permission-denied stat on the parent and a
succeeding write, `PutFile` performs no mkdir and returns the write's nil
error. -/
theorem c10_putFile_discards_other_stat_errors_witness :
    fsStatBroken.statDir (filepathDir "/a/b")
        = some (.permissionDenied "/a") ∧
    (GoError.permissionDenied "/a").isNotExist = false ∧
    (connQuiet.putFile fsStatBroken ctxLive "data" "/a/b" 7).events
        = [.statDir (filepathDir "/a/b"), .writeFile "/a/b" 7] ∧
    (connQuiet.putFile fsStatBroken ctxLive "data" "/a/b" 7).err
        = alookup fsStatBroken.writeErrs "/a/b" :=
  ⟨by decide, by decide,
    c10_putFile_discards_other_stat_errors connQuiet fsStatBroken ctxLive
      "data" "/a/b" 7 (.permissionDenied "/a") (by decide) (by decide)⟩

/-- C4: a successful `PutFile` leaves the destination containing exactly the
given bytes regardless of prior existence; when the parent directory does
not exist it is first created with the same permission mode, before the
write; a directory-creation failure aborts the call (no write is attempted)
and is returned as the call's error; a write failure is returned as the
call's error. -/
theorem c4_putFile_contract (c : LocalConnector) (fs : FS) (ctx : Ctx)
    (b p : String) (m : Nat) :
    ((c.putFile fs ctx b p m).err = none →
        alookup (c.putFile fs ctx b p m).fs.files p = some (.readable b)) ∧
    (∀ e, fs.statDir (filepathDir p) = some e → e.isNotExist = true →
        alookup fs.mkdirErrs (filepathDir p) = none →
        (c.putFile fs ctx b p m).events =
          [.statDir (filepathDir p), .mkdirAll (filepathDir p) m,
            .writeFile p m] ∧
        alookup ((c.putFile fs ctx b p m).fs).dirs (filepathDir p) = some m) ∧
    (∀ e me, fs.statDir (filepathDir p) = some e → e.isNotExist = true →
        alookup fs.mkdirErrs (filepathDir p) = some me →
        (c.putFile fs ctx b p m).err = some me ∧
        (c.putFile fs ctx b p m).fs = fs ∧
        ∀ ev ∈ (c.putFile fs ctx b p m).events, ev ≠ .writeFile p m) ∧
    (∀ we, alookup fs.writeErrs p = some we →
        (∀ e, fs.statDir (filepathDir p) = some e → e.isNotExist = true →
            alookup fs.mkdirErrs (filepathDir p) = none) →
        (c.putFile fs ctx b p m).err = some we) := by
  rcases hs : fs.statDir (filepathDir p) with _ | e
  · rcases hw : alookup fs.writeErrs p with _ | we <;>
      refine ⟨?_, ?_, ?_, ?_⟩ <;>
        simp [LocalConnector.putFile, writeStep, FS.writeFile, hs, hw, alookup]
  · cases hne : e.isNotExist
    · rcases hw : alookup fs.writeErrs p with _ | we <;>
        refine ⟨?_, ?_, ?_, ?_⟩ <;>
          simp [LocalConnector.putFile, writeStep, FS.writeFile, hs, hne, hw,
            alookup] <;>
          (try (rintro e1 me rfl hni; simp [hne] at hni))
    · rcases hm : alookup fs.mkdirErrs (filepathDir p) with _ | me
      · rcases hw : alookup fs.writeErrs p with _ | we <;>
          refine ⟨?_, ?_, ?_, ?_⟩ <;>
            simp [LocalConnector.putFile, writeStep, FS.writeFile,
              FS.mkdirAll, hs, hne, hm, hw, alookup]
      · refine ⟨?_, ?_, ?_, ?_⟩ <;>
          simp [LocalConnector.putFile, writeStep, FS.writeFile, FS.mkdirAll,
            hs, hne, hm, alookup]

/-- C4 witness: on an empty filesystem the parent `/a` of `/a/b` does not
exist; `PutFile` creates it with the same mode 7 before the write and leaves
`/a/b` containing exactly the given bytes. -/
theorem c4_putFile_contract_witness :
    fsEmpty.statDir (filepathDir "/a/b") = some (.notExist "/a") ∧
    (GoError.notExist "/a").isNotExist = true ∧
    alookup fsEmpty.mkdirErrs (filepathDir "/a/b") = none ∧
    (connQuiet.putFile fsEmpty ctxLive "data" "/a/b" 7).events
      = [.statDir (filepathDir "/a/b"), .mkdirAll (filepathDir "/a/b") 7,
          .writeFile "/a/b" 7] ∧
    alookup ((connQuiet.putFile fsEmpty ctxLive "data" "/a/b" 7).fs).dirs
        (filepathDir "/a/b") = some 7 ∧
    alookup (connQuiet.putFile fsEmpty ctxLive "data" "/a/b" 7).fs.files
        "/a/b" = some (.readable "data") :=
  ⟨by decide, by decide, by decide,
    ((c4_putFile_contract connQuiet fsEmpty ctxLive "data" "/a/b" 7).2.1
      (.notExist "/a") (by decide) (by decide) (by decide)).1,
    ((c4_putFile_contract connQuiet fsEmpty ctxLive "data" "/a/b" 7).2.1
      (.notExist "/a") (by decide) (by decide) (by decide)).2,
    (c4_putFile_contract connQuiet fsEmpty ctxLive "data" "/a/b" 7).1
      (by decide)⟩

/-- C1: on Linux, when the fact-gathering steps before `k` succeed and step
`k` fails with error `e`, `Info` returns a nil document and an error
wrapping `e` under the message of step `k` (the six messages are pairwise
distinct, so the message identifies the failing fact-source), and the event
trace stops at step `k` — no later fact-source is read. -/
theorem c1_info_fail_fast (c : LocalConnector) (env : Env) (ctx : Ctx)
    (k : Nat) (e : GoError) (hgoos : env.goos = "linux") (hk : k < 6)
    (hprev : ∀ j, j < k → stepErr c env ctx j = none)
    (hfail : stepErr c env ctx k = some e) :
    c.info env ctx
        = ⟨none, some (.wrap (stepLabel k) e), traceUpTo c env ctx k⟩ ∧
    ∀ j1 j2 : Fin 6, stepLabel j1.val = stepLabel j2.val → j1 = j2 := by
  constructor
  · interval_cases k
    · simp only [stepErr] at hfail
      simp [LocalConnector.info, hgoos, hfail, stepLabel, traceUpTo,
        stepEvents, List.range_succ, List.append_assoc]
    · have h0 := hprev 0 (by omega)
      simp only [stepErr] at h0 hfail
      simp [LocalConnector.info, hgoos, h0, hfail, stepLabel, traceUpTo,
        stepEvents, List.range_succ, List.append_assoc]
    · have h0 := hprev 0 (by omega)
      have h1 := hprev 1 (by omega)
      simp only [stepErr] at h0 h1 hfail
      simp [LocalConnector.info, hgoos, h0, h1, hfail, stepLabel, traceUpTo,
        stepEvents, List.range_succ, List.append_assoc]
    · have h0 := hprev 0 (by omega)
      have h1 := hprev 1 (by omega)
      have h2 := hprev 2 (by omega)
      simp only [stepErr] at h0 h1 h2 hfail
      simp [LocalConnector.info, hgoos, h0, h1, h2, hfail, stepLabel,
        traceUpTo, stepEvents, List.range_succ, List.append_assoc]
    · have h0 := hprev 0 (by omega)
      have h1 := hprev 1 (by omega)
      have h2 := hprev 2 (by omega)
      have h3 := hprev 3 (by omega)
      simp only [stepErr] at h0 h1 h2 h3 hfail
      simp [LocalConnector.info, hgoos, h0, h1, h2, h3, hfail, stepLabel,
        traceUpTo, stepEvents, List.range_succ, List.append_assoc]
    · have h0 := hprev 0 (by omega)
      have h1 := hprev 1 (by omega)
      have h2 := hprev 2 (by omega)
      have h3 := hprev 3 (by omega)
      have h4 := hprev 4 (by omega)
      simp only [stepErr] at h0 h1 h2 h3 h4 hfail
      simp [LocalConnector.info, hgoos, h0, h1, h2, h3, h4, hfail, stepLabel,
        traceUpTo, stepEvents, List.range_succ, List.append_assoc]
  · decide

/-- C1 witness: with `/etc/os-release` present but every command failing
with exit status 3, step 1 (kernel version) is the first failure: `Info`
returns a nil document, the kernel-version wrap of the exit error, and a
trace stopping after step 1. -/
theorem c1_info_fail_fast_witness :
    (∀ j, j < 1 →
      stepErr connFail ⟨"linux", fsOnlyRelease⟩ ctxLive j = none) ∧
    stepErr connFail ⟨"linux", fsOnlyRelease⟩ ctxLive 1
      = some (.exitErr 3) ∧
    connFail.info ⟨"linux", fsOnlyRelease⟩ ctxLive
      = ⟨none, some (.wrap (stepLabel 1) (.exitErr 3)),
          traceUpTo connFail ⟨"linux", fsOnlyRelease⟩ ctxLive 1⟩ := by
  have hprev : ∀ j, j < 1 →
      stepErr connFail ⟨"linux", fsOnlyRelease⟩ ctxLive j = none := by
    intro j hj
    interval_cases j
    decide
  exact ⟨hprev, by decide,
    (c1_info_fail_fast connFail ⟨"linux", fsOnlyRelease⟩ ctxLive 1
      (.exitErr 3) rfl (by omega) hprev (by decide)).1⟩

/-- C3: on Linux with all six fact-source reads succeeding, `Info` returns a
non-nil document whose top-level keys are exactly `os` and `process`; `os`
holds `release` (the os-release bytes parsed as a key=value mapping) and the
three command outputs with a single trailing newline removed; `process`
holds `cpuInfo` (the cpuinfo bytes parsed as an ordered sequence of
key:value records) and `memInfo` (the meminfo bytes parsed as a key:value
mapping). -/
theorem c3_info_success_document (c : LocalConnector) (env : Env) (ctx : Ctx)
    (hgoos : env.goos = "linux")
    (hok : ∀ j, j < 6 → stepErr c env ctx j = none) :
    c.info env ctx =
      ⟨some
        [("os",
          [("release", .table (convertBytesToMap (stepOut c env ctx 0) '=')),
           ("kernel_version", .str (trimOneNewline (stepOut c env ctx 1))),
           ("hostname", .str (trimOneNewline (stepOut c env ctx 2))),
           ("architecture", .str (trimOneNewline (stepOut c env ctx 3)))]),
         ("process",
          [("cpuInfo",
             .tables (convertBytesToSlice (stepOut c env ctx 4) ':')),
           ("memInfo",
             .table (convertBytesToMap (stepOut c env ctx 5) ':'))])],
        none, traceUpTo c env ctx 5⟩ := by
  have h0 := hok 0 (by omega)
  have h1 := hok 1 (by omega)
  have h2 := hok 2 (by omega)
  have h3 := hok 3 (by omega)
  have h4 := hok 4 (by omega)
  have h5 := hok 5 (by omega)
  simp only [stepErr] at h0 h1 h2 h3 h4 h5
  simp [LocalConnector.info, hgoos, h0, h1, h2, h3, h4, h5, stepOut,
    traceUpTo, stepEvents, List.range_succ, List.append_assoc]

/-- C3 witness: on a concrete Linux environment with all three files present
and all three commands answering, the theorem applies and yields the fully
shaped document. -/
theorem c3_info_success_document_witness :
    (∀ j, j < 6 → stepErr connLinux ⟨"linux", fsLinux⟩ ctxLive j = none) ∧
    connLinux.info ⟨"linux", fsLinux⟩ ctxLive =
      ⟨some
        [("os",
          [("release",
             .table (convertBytesToMap
               (stepOut connLinux ⟨"linux", fsLinux⟩ ctxLive 0) '=')),
           ("kernel_version",
             .str (trimOneNewline
               (stepOut connLinux ⟨"linux", fsLinux⟩ ctxLive 1))),
           ("hostname",
             .str (trimOneNewline
               (stepOut connLinux ⟨"linux", fsLinux⟩ ctxLive 2))),
           ("architecture",
             .str (trimOneNewline
               (stepOut connLinux ⟨"linux", fsLinux⟩ ctxLive 3)))]),
         ("process",
          [("cpuInfo",
             .tables (convertBytesToSlice
               (stepOut connLinux ⟨"linux", fsLinux⟩ ctxLive 4) ':')),
           ("memInfo",
             .table (convertBytesToMap
               (stepOut connLinux ⟨"linux", fsLinux⟩ ctxLive 5) ':'))])],
        none, traceUpTo connLinux ⟨"linux", fsLinux⟩ ctxLive 5⟩ := by
  have hok : ∀ j, j < 6 →
      stepErr connLinux ⟨"linux", fsLinux⟩ ctxLive j = none := by
    intro j hj
    interval_cases j <;> decide
  exact ⟨hok,
    c3_info_success_document connLinux ⟨"linux", fsLinux⟩ ctxLive rfl hok⟩
